import Mathlib

/-!
Verification of the cross-chain bridge event listener (`src/script.py`) and
the runtime type-enforcement decorator (`src/decorators.py`).

The Python code is shallowly embedded: the `StateDB` dedup store becomes an
in-memory list with set semantics plus an explicit model of the durable JSON
file; `process_event` and the body of `listen` become pure state-passing
functions; I/O outcomes (file-save success or failure, height-query success
or failure, an unexpected exception escaping to the catch-all handler) become
explicit parameters.
-/

/-- The durable backing medium of `StateDB` (the JSON file at `db_file_path`).
`absent` means the file does not exist; `snapshot txs` means the file holds
the valid JSON object with key `processed_txs` listing `txs`; `corrupt` means
the file exists but is not parsable JSON (for example a truncated partial
write). -/
inductive DurableFile where
  | absent
  | snapshot (txs : List String)
  | corrupt
deriving DecidableEq

/-- Outcome of the file I/O inside `StateDB._save`. `ok`: the open and the
`json.dump` both succeed. `openFail`: `open(db_file_path, 'w')` raises
`IOError`, so the file is untouched. `writeFail`: the open succeeds (Python
`'w'` mode truncates the file at that point) and `json.dump` then raises
`IOError` mid-write, leaving a truncated or partial, unparsable file. -/
inductive SaveOutcome where
  | ok
  | openFail
  | writeFail
deriving DecidableEq

/-- Effect of `StateDB._save` on the durable file: on success the file holds
exactly the current in-memory set; an open failure leaves the previous file
intact; a failure during the dump (after `'w'` truncation) leaves an
unparsable file. The `IOError` is caught and logged, never re-raised. -/
def saveResult (txs : List String) (o : SaveOutcome) (prev : DurableFile) : DurableFile :=
  match o with
  | .ok => .snapshot txs
  | .openFail => prev
  | .writeFail => .corrupt

/-- `StateDB._load`: returns the loaded set together with a flag recording
whether an error was logged. Absent file: empty set, nothing logged.
Parsable file: its `processed_txs` list. Unparsable file: `json.load` raises,
the handler logs the error and returns the empty set. -/
def StateDB.load : DurableFile → List String × Bool
  | .absent => ([], false)
  | .snapshot txs => (txs, false)
  | .corrupt => ([], true)

/-- Python `set.add`: insert `tx` into the set unless already present.
The in-memory set is represented as a duplicate-free-by-construction list;
only membership matters. -/
def addTx (db : List String) (tx : String) : List String :=
  if tx ∈ db then db else db ++ [tx]

/-- `StateDB.is_processed`: pure membership test on the in-memory set. -/
def is_processed (db : List String) (tx : String) : Bool :=
  decide (tx ∈ db)

/-- `StateDB.mark_as_processed`: add the hash to the in-memory set, then
attempt `_save` with outcome `o`. Returns the new in-memory set and the new
durable file. The in-memory insertion happens unconditionally, before and
independently of the flush outcome. -/
def mark_as_processed (db : List String) (file : DurableFile) (tx : String)
    (o : SaveOutcome) : List String × DurableFile :=
  let db2 := addTx db tx
  (db2, saveResult db2 o file)

/-- A decoded `TokensLocked` event as `process_event` sees it. `args.get`
returns `None` for a missing key, modelled by `none`; Python truthiness makes
`0` and the empty string behave like missing values in the `all` check. -/
structure RawEvent where
  transactionHash : String
  blockNumber : Nat
  logIndex : Nat
  sender : Option String
  amount : Option Nat
  toChainId : Option Nat
deriving DecidableEq

/-- Python truthiness of an optional string: `None` and `''` are falsy. -/
def truthyStr : Option String → Bool
  | none => false
  | some s => decide (s ≠ "")

/-- Python truthiness of an optional integer: `None` and `0` are falsy. -/
def truthyNat : Option Nat → Bool
  | none => false
  | some n => decide (n ≠ 0)

/-- `CrossChainEventListener.process_event`, as a pure function from the
dedup state to the new dedup state plus a flag saying whether the downstream
action (the simulated `mint` dispatch) was invoked. The steps mirror the
source: dedup gate, `all([...])` truthiness check on `sender`, `amount`,
`toChainId`, target-chain comparison, then dispatch followed by
`mark_as_processed` (with flush outcome `o`). -/
def process_event (destChainId : Nat) (ev : RawEvent) (db : List String)
    (file : DurableFile) (o : SaveOutcome) : Bool × List String × DurableFile :=
  if is_processed db ev.transactionHash then
    (false, db, file)
  else if truthyStr ev.sender && truthyNat ev.amount && truthyNat ev.toChainId then
    if ev.toChainId = some destChainId then
      let m := mark_as_processed db file ev.transactionHash o
      (true, m.1, m.2)
    else
      (false, db, file)
  else
    (false, db, file)

/-- `BlockchainConnector.get_latest_block_number`: wraps the underlying
`web3.eth.block_number` call (whose outcome is the `Except` argument) in a
`try`/`except Exception` that logs and returns `None` on any failure. It is
total: it never propagates an exception. -/
def get_latest_block_number : Except String Nat → Option Nat
  | .ok n => some n
  | .error _ => none

/-- The mutable state of `CrossChainEventListener` relevant to the loop:
`last_processed_block`, `poll_interval`, and the owned `StateDB` (in-memory
set plus its durable file). -/
structure ListenerState where
  lastProcessedBlock : Nat
  pollInterval : Nat
  db : List String
  durable : DurableFile
deriving DecidableEq

/-- Result of one iteration of the `while True` body of
`CrossChainEventListener.listen`: the state afterwards, the duration of the
`time.sleep` call that ends the iteration, and the transaction hashes whose
events were dispatched (the simulated `mint`), in processing order. -/
structure CycleResult where
  state : ListenerState
  sleepSeconds : Nat
  dispatched : List String
deriving DecidableEq

/-- The `for event in events` loop of `listen`: process each event in list
order through `process_event`, threading the dedup state, collecting the
hashes of dispatched events in order. -/
def processEvents (destChainId : Nat) (evs : List RawEvent) (db : List String)
    (file : DurableFile) (o : SaveOutcome) : List String × DurableFile × List String :=
  match evs with
  | [] => (db, file, [])
  | ev :: rest =>
    let r := process_event destChainId ev db file o
    let pr := processEvents destChainId rest r.2.1 r.2.2 o
    (pr.1, pr.2.1, (if r.1 then [ev.transactionHash] else []) ++ pr.2.2)

/-- One iteration of the `while True` body of `listen`.
`height` is the result of `get_latest_block_number` (`none` = failed query,
handled by the explicit `latest_block is None` branch: warn, sleep
`poll_interval`, `continue`). When `height = some latest` and
`latest > last_processed_block`, the range `[last+1, latest]` is scanned;
`evs` is what `event_filter.get_all_entries()` returned for that range.
`failAt = some k` models an unexpected exception raised while processing
event number `k` (0-based): the first `k` events keep their effects, the
rest of the body — including the `last_processed_block = to_block`
assignment — is skipped, and the catch-all `except Exception` handler logs
and sleeps `2 * poll_interval`. `failAt = none` is a cycle with no
unexpected exception: after the loop, `last_processed_block` is set to
`to_block` and the iteration ends with `time.sleep(poll_interval)`. -/
def listenCycle (destChainId : Nat) (st : ListenerState) (height : Option Nat)
    (evs : List RawEvent) (o : SaveOutcome) (failAt : Option Nat) : CycleResult :=
  match height with
  | none => ⟨st, st.pollInterval, []⟩
  | some latest =>
    if st.lastProcessedBlock < latest then
      match failAt with
      | some k =>
        let pr := processEvents destChainId (evs.take k) st.db st.durable o
        ⟨{ st with db := pr.1, durable := pr.2.1 }, 2 * st.pollInterval, pr.2.2⟩
      | none =>
        let pr := processEvents destChainId evs st.db st.durable o
        ⟨{ st with lastProcessedBlock := latest, db := pr.1, durable := pr.2.1 },
          st.pollInterval, pr.2.2⟩
    else ⟨st, st.pollInterval, []⟩

/-- The per-cycle external inputs of one iteration of `listen`. -/
structure CycleInput where
  height : Option Nat
  events : List RawEvent
  saveO : SaveOutcome
  failAt : Option Nat

/-- Iterate `listenCycle` over a sequence of per-cycle inputs: the lifetime
of the process as successive iterations of the `while True` loop. -/
def runCycles (destChainId : Nat) (ins : List CycleInput) (st : ListenerState) :
    ListenerState :=
  match ins with
  | [] => st
  | i :: rest =>
    runCycles destChainId rest (listenCycle destChainId st i.height i.events i.saveO i.failAt).state

/-- Ascending lexicographic order on raw events by `(blockNumber, logIndex)`. -/
def evLe (a b : RawEvent) : Bool :=
  decide (a.blockNumber < b.blockNumber ∨
    (a.blockNumber = b.blockNumber ∧ a.logIndex ≤ b.logIndex))

/-- Insert an event into a list kept ascending under `evLe`. -/
def insertEv (e : RawEvent) : List RawEvent → List RawEvent
  | [] => [e]
  | x :: xs => if evLe e x then e :: x :: xs else x :: insertEv e xs

/-- Modelled from the spec: the event retrieval of the scan step —
`event_filter.get_all_entries()` in `listen` — is implemented inside the
external web3 ledger client, not in this repository; the spec's scanner and
`getLogs` contracts state that the raw events of the scanned range are
returned sorted ascending by `(blockNumber, logIndex)`. Modelled as sorting
the range's raw logs by that key. -/
def scan (evs : List RawEvent) : List RawEvent :=
  match evs with
  | [] => []
  | e :: es => insertEv e (scan es)

/-- A Python runtime value, as far as the decorator's checks distinguish
them: integers, strings, booleans, and `None`. -/
inductive PyVal where
  | int (n : Int)
  | str (s : String)
  | bool (b : Bool)
  | pynone
deriving DecidableEq

/-- A type object usable as an annotation. -/
inductive PyType where
  | int
  | str
  | bool
deriving DecidableEq

/-- Python's `isinstance`. Note `bool` is a subclass of `int` in Python, so
`isinstance(True, int)` is true. -/
def isinstance : PyVal → PyType → Bool
  | .int _, .int => true
  | .bool _, .int => true
  | .bool _, .bool => true
  | .str _, .str => true
  | _, _ => false

/-- A Python function as `enforce_types` sees it: the parameter list in
declaration order, each with its optional annotation (`func.__annotations__`
entry), the optional `return` annotation, and the body. Arguments are taken
positionally after `sig.bind` has matched them to parameters. -/
structure PyFunc where
  params : List (String × Option PyType)
  retAnn : Option PyType
  body : List PyVal → PyVal

/-- The argument-checking loop of the wrapper: walk `bound_args.arguments`
in parameter order; for each parameter that has an annotation, test
`isinstance`; return the name of the first failing parameter, if any.
Unannotated parameters are passed over without any check. -/
def firstBadArg : List (String × Option PyType) → List PyVal → Option String
  | [], _ => none
  | _, [] => none
  | (nm, ann) :: ps, v :: vs =>
    match ann with
    | some t => if isinstance v t then firstBadArg ps vs else some nm
    | none => firstBadArg ps vs

/-- `enforce_types(func)` applied to a call with arguments `args`:
check annotated arguments (raising `TypeError` naming the first offender
before running the body), then run the body, then check the result against
the `return` annotation if present. `Except.error` models a raised
`TypeError`. -/
def enforce_types (f : PyFunc) (args : List PyVal) : Except String PyVal :=
  match firstBadArg f.params args with
  | some nm => .error nm
  | none =>
    let result := f.body args
    match f.retAnn with
    | some t => if isinstance result t then .ok result else .error "return"
    | none => .ok result

/-- Whether the body's result on `args` satisfies the `return` annotation
(vacuously true when there is none). -/
def retWellTyped (f : PyFunc) (args : List PyVal) : Bool :=
  match f.retAnn with
  | some t => isinstance (f.body args) t
  | none => true

/-- A list of raw events in ascending `(blockNumber, logIndex)` order. -/
def SortedEv (l : List RawEvent) : Prop :=
  List.Pairwise (fun a b => evLe a b = true) l

lemma mem_addTx_self (db : List String) (tx : String) : tx ∈ addTx db tx := by
  by_cases h : tx ∈ db <;> simp [addTx, h]

lemma process_event_already_processed (dest : Nat) (ev : RawEvent) (db : List String)
    (file : DurableFile) (o : SaveOutcome)
    (h : is_processed db ev.transactionHash = true) :
    process_event dest ev db file o = (false, db, file) := by
  simp [process_event, h]

/-- C1: dedup idempotence. After `mark_as_processed t`, `is_processed t` is
true in memory regardless of the flush outcome; when the flush succeeded,
`t` is also in the set a fresh instance loads from the durable snapshot; and
processing any event whose transaction hash is already in the dedup set
returns immediately, invoking no dispatch and leaving the dedup set and the
durable file unchanged. -/
theorem dedup_idempotent (t : String) (db : List String) (file : DurableFile) :
    (∀ o : SaveOutcome, is_processed (mark_as_processed db file t o).1 t = true)
    ∧ is_processed (StateDB.load (mark_as_processed db file t .ok).2).1 t = true
    ∧ (∀ (dest : Nat) (ev : RawEvent) (db' : List String) (file' : DurableFile)
        (o : SaveOutcome), is_processed db' ev.transactionHash = true →
        process_event dest ev db' file' o = (false, db', file')) := by
  refine ⟨?_, ?_, ?_⟩
  · intro o
    simp [mark_as_processed, is_processed, mem_addTx_self]
  · simp [mark_as_processed, saveResult, StateDB.load, is_processed, mem_addTx_self]
  · intro dest ev db' file' o h
    exact process_event_already_processed dest ev db' file' o h

/-- Witness for `dedup_idempotent` at transaction hash `0xa`. -/
theorem dedup_idempotent_witness :
    is_processed (mark_as_processed [] .absent "0xa" .ok).1 "0xa" = true
    ∧ process_event 80001 ⟨"0xa", 5, 0, some "0xs", some 100, some 80001⟩
        ["0xa"] (.snapshot ["0xa"]) .ok = (false, ["0xa"], .snapshot ["0xa"]) :=
  ⟨(dedup_idempotent "0xa" [] .absent).1 .ok,
   (dedup_idempotent "0xa" [] .absent).2.2 80001
     ⟨"0xa", 5, 0, some "0xs", some 100, some 80001⟩ ["0xa"] (.snapshot ["0xa"]) .ok
     (by decide)⟩

/-- C4: chain filter. For an event whose `sender`, `amount` and `toChainId`
are all present (truthy) but whose target chain differs from the destination
chain id, `process_event` dispatches nothing and leaves the dedup set and
the durable file unchanged. -/
theorem wrong_chain_no_dispatch (dest : Nat) (ev : RawEvent) (db : List String)
    (file : DurableFile) (o : SaveOutcome) (c : Nat)
    (hs : truthyStr ev.sender = true) (ha : truthyNat ev.amount = true)
    (hc : ev.toChainId = some c) (hc0 : c ≠ 0) (hne : c ≠ dest) :
    process_event dest ev db file o = (false, db, file) := by
  by_cases hp : is_processed db ev.transactionHash = true
  · simp [process_event, hp]
  · have ht : truthyNat ev.toChainId = true := by simp [truthyNat, hc, hc0]
    simp [process_event, hp, hs, ha, ht, hc, hne]

/-- Witness for `wrong_chain_no_dispatch`: destination 80001, event bound
for chain 1. -/
theorem wrong_chain_no_dispatch_witness :
    process_event 80001 ⟨"0xb", 5, 0, some "0xs", some 100, some 1⟩ [] .absent .ok
      = (false, [], .absent) :=
  wrong_chain_no_dispatch 80001 ⟨"0xb", 5, 0, some "0xs", some 100, some 1⟩ [] .absent
    .ok 1 (by decide) (by decide) rfl (by decide) (by decide)

/-- C5: malformed rejection. If any of `sender`, `amount`, `toChainId` is
absent or zero-valued/empty, `process_event` dispatches nothing and changes
nothing, and the per-cycle loop over the remaining events proceeds exactly
as if the malformed event were not there. -/
theorem malformed_skipped (dest : Nat) (ev : RawEvent) (rest : List RawEvent)
    (db : List String) (file : DurableFile) (o : SaveOutcome)
    (hmal : ¬(truthyStr ev.sender = true ∧ truthyNat ev.amount = true
              ∧ truthyNat ev.toChainId = true)) :
    process_event dest ev db file o = (false, db, file)
    ∧ processEvents dest (ev :: rest) db file o = processEvents dest rest db file o := by
  have hb : (truthyStr ev.sender && truthyNat ev.amount && truthyNat ev.toChainId) = false := by
    rcases Bool.eq_false_or_eq_true (truthyStr ev.sender) with h1 | h1 <;>
      rcases Bool.eq_false_or_eq_true (truthyNat ev.amount) with h2 | h2 <;>
        rcases Bool.eq_false_or_eq_true (truthyNat ev.toChainId) with h3 | h3 <;>
          simp [h1, h2, h3] at hmal ⊢
  have h1 : process_event dest ev db file o = (false, db, file) := by
    by_cases hp : is_processed db ev.transactionHash = true
    · simp [process_event, hp]
    · simp [process_event, hp, hb]
  exact ⟨h1, by simp [processEvents, h1]⟩

/-- Witness for `malformed_skipped`: an event with `amount` missing. -/
theorem malformed_skipped_witness :
    process_event 80001 ⟨"0xc", 5, 0, some "0xs", none, some 80001⟩ [] .absent .ok
      = (false, [], .absent)
    ∧ processEvents 80001 [⟨"0xc", 5, 0, some "0xs", none, some 80001⟩,
        ⟨"0xd", 5, 1, some "0xs", some 7, some 80001⟩] [] .absent .ok
      = processEvents 80001 [⟨"0xd", 5, 1, some "0xs", some 7, some 80001⟩] [] .absent .ok :=
  malformed_skipped 80001 ⟨"0xc", 5, 0, some "0xs", none, some 80001⟩
    [⟨"0xd", 5, 1, some "0xs", some 7, some 80001⟩] [] .absent .ok (by decide)

/-- C7: load-on-init tolerance. An absent backing file loads as the empty
set with no error logged; a present but unparsable file loads as the empty
set with the condition logged. -/
theorem load_tolerant :
    StateDB.load .absent = ([], false) ∧ StateDB.load .corrupt = ([], true) :=
  ⟨rfl, rfl⟩

/-- C9: the height query is total. `get_latest_block_number` returns `none`
on any underlying client failure and `some n` on success; a failed query is
handled by the explicit `latest_block is None` branch of the loop — state
unchanged, sleep of one `poll_interval`, no dispatch — for every possible
exception point `f`, so it never reaches the catch-all handler. -/
theorem height_query_total (e : String) (n : Nat) (dest : Nat) (st : ListenerState)
    (evs : List RawEvent) (o : SaveOutcome) (f : Option Nat) :
    get_latest_block_number (.error e) = none
    ∧ get_latest_block_number (.ok n) = some n
    ∧ listenCycle dest st (get_latest_block_number (.error e)) evs o f
        = ⟨st, st.pollInterval, []⟩ :=
  ⟨rfl, rfl, rfl⟩

/-- C2 counterexample: with `poll_interval = 15`, a cycle whose height query
fails sleeps 15 seconds — `time.sleep(self.poll_interval)` in the
`latest_block is None` branch — not the claimed `2 × 15`. -/
theorem height_failure_sleep_counterexample :
    (listenCycle 80001 ⟨100, 15, [], .absent⟩ none [] .ok none).sleepSeconds = 15
    ∧ (listenCycle 80001 ⟨100, 15, [], .absent⟩ none [] .ok none).sleepSeconds
        ≠ 2 * 15 := by
  exact ⟨rfl, by decide⟩

/-- C2 (amended): a failed height query makes the loop sleep
`poll_interval` seconds (unchanged); the `2 × poll_interval` sleep happens
only when an unexpected exception escapes the cycle body into the catch-all
handler; and `poll_interval` itself is never mutated, so every subsequent
cycle — in particular the next successful one — sleeps `poll_interval`
again. -/
theorem height_failure_sleep (dest : Nat) (st : ListenerState) (evs : List RawEvent)
    (o : SaveOutcome) :
    (listenCycle dest st none evs o none).sleepSeconds = st.pollInterval
    ∧ (∀ latest k, st.lastProcessedBlock < latest →
        (listenCycle dest st (some latest) evs o (some k)).sleepSeconds
          = 2 * st.pollInterval)
    ∧ (∀ h f, (listenCycle dest st h evs o f).state.pollInterval = st.pollInterval) := by
  refine ⟨rfl, ?_, ?_⟩
  · intro latest k hlt
    simp [listenCycle, hlt]
  · intro h f
    cases h with
    | none => rfl
    | some latest =>
      by_cases hlt : st.lastProcessedBlock < latest <;> cases f <;> simp [listenCycle, hlt]

/-- Witness for `height_failure_sleep`. -/
theorem height_failure_sleep_witness :
    (listenCycle 80001 ⟨100, 15, [], .absent⟩ none [] .ok none).sleepSeconds = 15
    ∧ (listenCycle 80001 ⟨100, 15, [], .absent⟩ (some 101) [] .ok (some 0)).sleepSeconds
        = 2 * 15 :=
  ⟨(height_failure_sleep 80001 ⟨100, 15, [], .absent⟩ [] .ok).1,
   (height_failure_sleep 80001 ⟨100, 15, [], .absent⟩ [] .ok).2.1 101 0 (by decide)⟩

lemma listenCycle_last_mono (dest : Nat) (st : ListenerState) (h : Option Nat)
    (evs : List RawEvent) (o : SaveOutcome) (f : Option Nat) :
    st.lastProcessedBlock ≤ (listenCycle dest st h evs o f).state.lastProcessedBlock := by
  cases h with
  | none => exact Nat.le_refl _
  | some latest =>
    by_cases hlt : st.lastProcessedBlock < latest
    · cases f with
      | some k => simp [listenCycle, hlt]
      | none => simp [listenCycle, hlt]; exact Nat.le_of_lt hlt
    · simp [listenCycle, hlt]

lemma runCycles_last_mono (dest : Nat) (ins : List CycleInput) (st : ListenerState) :
    st.lastProcessedBlock ≤ (runCycles dest ins st).lastProcessedBlock := by
  induction ins generalizing st with
  | nil => exact Nat.le_refl _
  | cons i rest ih =>
    simp only [runCycles]
    exact Nat.le_trans (listenCycle_last_mono dest st i.height i.events i.saveO i.failAt)
      (ih _)

/-- C6: monotone progress. `last_processed_block` never decreases across a
cycle (and hence across any sequence of cycles); a cycle that scans
`[last+1, latest]` and completes its whole event sequence without an
unexpected exception sets it to the range's upper end `latest`; a cycle
interrupted by an unexpected exception mid-sequence leaves it unchanged, so
the whole range is rescanned later. -/
theorem lastProcessedBlock_monotone (dest : Nat) (st : ListenerState) (h : Option Nat)
    (evs : List RawEvent) (o : SaveOutcome) (f : Option Nat) :
    st.lastProcessedBlock ≤ (listenCycle dest st h evs o f).state.lastProcessedBlock
    ∧ (∀ latest, h = some latest → f = none → st.lastProcessedBlock < latest →
        (listenCycle dest st h evs o f).state.lastProcessedBlock = latest)
    ∧ (∀ k, f = some k →
        (listenCycle dest st h evs o f).state.lastProcessedBlock = st.lastProcessedBlock)
    ∧ (∀ ins : List CycleInput,
        st.lastProcessedBlock ≤ (runCycles dest ins st).lastProcessedBlock) := by
  refine ⟨listenCycle_last_mono dest st h evs o f, ?_, ?_, fun ins => runCycles_last_mono dest ins st⟩
  · intro latest hh hf hlt
    subst hh; subst hf
    simp [listenCycle, hlt]
  · intro k hf
    subst hf
    cases h with
    | none => rfl
    | some latest =>
      by_cases hlt : st.lastProcessedBlock < latest <;> simp [listenCycle, hlt]

/-- Witness for `lastProcessedBlock_monotone`: a completed scan of
`[101, 105]` advances to 105; an interrupted one stays at 100. -/
theorem lastProcessedBlock_monotone_witness :
    (listenCycle 80001 ⟨100, 15, [], .absent⟩ (some 105) [] .ok none).state.lastProcessedBlock
      = 105
    ∧ (listenCycle 80001 ⟨100, 15, [], .absent⟩ (some 105) [] .ok
        (some 0)).state.lastProcessedBlock = 100 :=
  ⟨(lastProcessedBlock_monotone 80001 ⟨100, 15, [], .absent⟩ (some 105) [] .ok none).2.1
      105 rfl rfl (by decide),
   (lastProcessedBlock_monotone 80001 ⟨100, 15, [], .absent⟩ (some 105) [] .ok
      (some 0)).2.2.1 0 rfl⟩

/-- C3 (code bug): flush failure can destroy the prior durable snapshot.
`_save` opens the file in `'w'` mode, truncating it, before `json.dump`
writes; a dump failure therefore leaves an unparsable partial file in place
of the previous snapshot, which a fresh instance then loads as the empty
set. Only a failure at `open` itself leaves the previous snapshot intact.
The in-memory set keeps the new hash regardless of the flush outcome. -/
theorem flush_failure_corrupts_prior_snapshot :
    mark_as_processed ["0xold"] (.snapshot ["0xold"]) "0xa" .writeFail
      = (["0xold", "0xa"], .corrupt)
    ∧ DurableFile.corrupt ≠ DurableFile.snapshot ["0xold"]
    ∧ StateDB.load .corrupt = ([], true)
    ∧ (∀ (db : List String) (file : DurableFile) (tx : String),
        (mark_as_processed db file tx .openFail).2 = file)
    ∧ (∀ (db : List String) (file : DurableFile) (tx : String) (o : SaveOutcome),
        tx ∈ (mark_as_processed db file tx o).1) := by
  refine ⟨by decide, by decide, rfl, fun db file tx => rfl, fun db file tx o => ?_⟩
  exact mem_addTx_self db tx

lemma evLe_total (a b : RawEvent) : evLe a b = true ∨ evLe b a = true := by
  simp only [evLe, decide_eq_true_eq]
  omega

lemma evLe_trans {a b c : RawEvent} (h1 : evLe a b = true) (h2 : evLe b c = true) :
    evLe a c = true := by
  simp only [evLe, decide_eq_true_eq] at h1 h2 ⊢
  omega

lemma mem_insertEv {e x : RawEvent} {l : List RawEvent} (hx : x ∈ insertEv e l) :
    x = e ∨ x ∈ l := by
  induction l with
  | nil => simpa [insertEv] using hx
  | cons y ys ih =>
    by_cases h : evLe e y = true
    · simp only [insertEv, h, if_true] at hx
      rcases List.mem_cons.mp hx with h1 | h1
      · exact Or.inl h1
      · exact Or.inr h1
    · simp only [insertEv, h, if_false] at hx
      rcases List.mem_cons.mp hx with h1 | h1
      · exact Or.inr (h1 ▸ List.mem_cons_self y _)
      · rcases ih h1 with h2 | h2
        · exact Or.inl h2
        · exact Or.inr (List.mem_cons_of_mem y h2)

lemma sorted_insertEv {e : RawEvent} {l : List RawEvent} (hl : SortedEv l) :
    SortedEv (insertEv e l) := by
  induction l with
  | nil => simp [insertEv, SortedEv]
  | cons x xs ih =>
    rcases List.pairwise_cons.mp hl with ⟨hx, hxs⟩
    by_cases h : evLe e x = true
    · simp only [insertEv, h, if_true]
      refine List.pairwise_cons.mpr ⟨?_, hl⟩
      intro y hy
      rcases List.mem_cons.mp hy with rfl | hy
      · exact h
      · exact evLe_trans h (hx y hy)
    · simp only [insertEv, h, if_false]
      refine List.pairwise_cons.mpr ⟨?_, ih hxs⟩
      intro y hy
      rcases mem_insertEv hy with rfl | hy
      · rcases evLe_total y x with h1 | h1
        · exact absurd h1 h
        · exact h1
      · exact hx y hy

lemma sorted_scan (evs : List RawEvent) : SortedEv (scan evs) := by
  induction evs with
  | nil => simp [scan, SortedEv]
  | cons e es ih => exact sorted_insertEv ih

/-- C8: scan ordering. The sequence of raw events the scan step hands to
per-event processing is sorted ascending by `(blockNumber, logIndex)`; in
particular, from events at `(block 5, log 1)` and `(block 5, log 0)`, the
log-0 event comes out first. -/
theorem scan_ordering :
    (∀ evs : List RawEvent, SortedEv (scan evs))
    ∧ scan [⟨"0xt1", 5, 1, some "0xs", some 1, some 1⟩,
            ⟨"0xt0", 5, 0, some "0xs", some 1, some 1⟩]
        = [⟨"0xt0", 5, 0, some "0xs", some 1, some 1⟩,
           ⟨"0xt1", 5, 1, some "0xs", some 1, some 1⟩] :=
  ⟨sorted_scan, by decide⟩

lemma firstBadArg_set_unannotated (ps : List (String × Option PyType)) :
    ∀ (vs : List PyVal) (i : Nat) (v : PyVal) (nm : String),
      ps[i]? = some (nm, none) →
      firstBadArg ps (vs.set i v) = firstBadArg ps vs := by
  induction ps with
  | nil => intro vs i v nm hg; simp [firstBadArg]
  | cons p ps ih =>
    intro vs i v nm hg
    cases vs with
    | nil => simp [List.set_nil]
    | cons w ws =>
      cases i with
      | zero =>
        simp only [List.getElem?_cons_zero, Option.some.injEq] at hg
        subst hg
        rfl
      | succ i =>
        simp only [List.getElem?_cons_succ] at hg
        simp only [List.set_cons_succ]
        obtain ⟨nm', ann⟩ := p
        cases ann with
        | some t =>
          rcases Bool.eq_false_or_eq_true (isinstance w t) with hi | hi
          · simp only [firstBadArg, hi, if_true]
            exact ih ws i v nm hg
          · simp [firstBadArg, hi]
        | none =>
          simp only [firstBadArg]
          exact ih ws i v nm hg

/-- C10: `enforce_types` is the identity on well-typed calls. When every
annotated argument satisfies its annotation and the body's result satisfies
the `return` annotation, the wrapper returns exactly the body's result; when
some annotated argument fails its annotation, the wrapper raises `TypeError`
naming the first offender, and does so identically for every possible body —
the body is never executed; and the argument check never looks at the value
bound to an unannotated parameter. -/
theorem enforce_types_spec (f : PyFunc) (args : List PyVal) :
    (firstBadArg f.params args = none → retWellTyped f args = true →
       enforce_types f args = .ok (f.body args))
    ∧ (∀ nm, firstBadArg f.params args = some nm →
       ∀ g : List PyVal → PyVal,
         enforce_types ⟨f.params, f.retAnn, g⟩ args = .error nm)
    ∧ (∀ (i : Nat) (v : PyVal) (nm : String), f.params[i]? = some (nm, none) →
         firstBadArg f.params (args.set i v) = firstBadArg f.params args) := by
  refine ⟨?_, ?_, ?_⟩
  · intro h1 h2
    unfold enforce_types
    rw [h1]
    cases hret : f.retAnn with
    | none => simp [hret]
    | some t =>
      have h2' : isinstance (f.body args) t = true := by
        unfold retWellTyped at h2
        rw [hret] at h2
        exact h2
      simp [hret, h2']
  · intro nm h g
    unfold enforce_types
    simp only [h]
  · intro i v nm hg
    exact firstBadArg_set_unannotated f.params args i v nm hg

/-- Witness for `enforce_types_spec` on a `greet(name: str, age: int) -> str`
style function. -/
theorem enforce_types_spec_witness :
    enforce_types ⟨[("name", some .str), ("age", some .int)], some .str,
        fun _ => .str "hi"⟩ [.str "Alice", .int 30] = .ok (.str "hi")
    ∧ enforce_types ⟨[("name", some .str), ("age", some .int)], some .str,
        fun _ => .str "hi"⟩ [.str "Bob", .str "twenty"] = .error "age"
    ∧ firstBadArg [("x", some .int), ("y", none)] ([.int 1, .str "s"].set 1 .pynone)
        = firstBadArg [("x", some .int), ("y", none)] [.int 1, .str "s"] :=
  ⟨(enforce_types_spec ⟨[("name", some .str), ("age", some .int)], some .str,
      fun _ => .str "hi"⟩ [.str "Alice", .int 30]).1 rfl rfl,
   (enforce_types_spec ⟨[("name", some .str), ("age", some .int)], some .str,
      fun _ => .str "hi"⟩ [.str "Bob", .str "twenty"]).2.1 "age" rfl (fun _ => .str "hi"),
   (enforce_types_spec ⟨[("x", some .int), ("y", none)], none, fun _ => .pynone⟩
      [.int 1, .str "s"]).2.2 1 .pynone "y" rfl⟩
